import Mathlib

/-!
Shallow embedding of the polymarket-account-monitor TypeScript sources
(src/api/polymarket-client.ts, src/monitor/account-monitor.ts, src/types/index.ts).

JavaScript dynamic values are modelled by the inductive `JVal`; JS numbers are
modelled by `Option ℚ` where `none` stands for NaN (infinities are outside the
model; no code path of this repository produces them from the inputs the
claims are about).  Property access on `undefined`/`null` throws a TypeError,
which fallible functions surface through `Except JsError`.
-/

namespace Poly

/-- Model of a JavaScript value as it flows through the untyped (`any`)
normalization layer.  `num none` is NaN. -/
inductive JVal where
  | undefined : JVal
  | null : JVal
  | bool (b : Bool) : JVal
  | num (q : Option ℚ) : JVal
  | str (s : String) : JVal
  | arr (xs : List JVal) : JVal
  | obj (fields : List (String × JVal)) : JVal

/-- JS SameValueZero, the equality used by `Set` membership: primitives by
value (NaN equal to NaN), objects and arrays by reference — and since every
poll cycle builds fresh objects, two object references compared by the change
detector are never identical, so reference equality is modelled as `false`. -/
def sameValueZero : JVal → JVal → Bool
  | .undefined, .undefined => true
  | .null, .null => true
  | .bool a, .bool b => a == b
  | .num a, .num b => a == b
  | .str a, .str b => a == b
  | _, _ => false

instance : BEq JVal := ⟨sameValueZero⟩

/-- First binding of a key in an object literal (examples below never use
duplicate keys, so the JS last-wins rule is not observable). -/
def lookupField : List (String × JVal) → String → JVal
  | [], _ => .undefined
  | (k, v) :: fs, key => if k = key then v else lookupField fs key

/-- JS truthiness: `undefined`, `null`, `false`, `0`, NaN and the empty string
are falsy, every other value (including every object and array) is truthy. -/
def truthy : JVal → Bool
  | .undefined => false
  | .null => false
  | .bool b => b
  | .num none => false
  | .num (some q) => decide (q ≠ 0)
  | .str s => decide (s ≠ "")
  | .arr _ => true
  | .obj _ => true

/-- JS `a || b`: `a` when truthy, otherwise `b` (the source uses this for every
alternate-key fallback and default). -/
def jor (a b : JVal) : JVal := if truthy a then a else b

/-- Error value: `status` models `error.response?.status` (absent for a
TypeError raised by property access), `message` models `error.message`. -/
structure JsError where
  status : Option Nat
  message : String
deriving DecidableEq

/-- TypeError thrown by reading property `k` of `undefined`. -/
def typeErrorUndefined (k : String) : JsError :=
  ⟨none, "TypeError: Cannot read properties of undefined (reading " ++ k ++ ")"⟩

/-- TypeError thrown by reading property `k` of `null`. -/
def typeErrorNull (k : String) : JsError :=
  ⟨none, "TypeError: Cannot read properties of null (reading " ++ k ++ ")"⟩

/-- Property read `v.k` in a position where the source guards the receiver
(or where the receiver is statically known non-nullish): on a primitive the
property is absent, hence `undefined`. -/
def getD : JVal → String → JVal
  | .obj fs, k => lookupField fs k
  | _, _ => .undefined

/-- Property read `v.k` that can throw: reading any property of
`undefined`/`null` raises a TypeError, every other receiver behaves as
`getD`. -/
def getF : JVal → String → Except JsError JVal
  | .undefined, k => .error (typeErrorUndefined k)
  | .null, k => .error (typeErrorNull k)
  | v, k => .ok (getD v k)

/-- Longest run of leading decimal digits. -/
def takeDigits : List Char → List Char × List Char
  | [] => ([], [])
  | c :: cs =>
    if c.isDigit then
      let r := takeDigits cs
      (c :: r.1, r.2)
    else ([], c :: cs)

/-- Numeric value of a digit list (most significant first). -/
def digitsVal (ds : List Char) : Nat :=
  ds.foldl (fun a c => 10 * a + (c.toNat - 48)) 0

/-- Mantissa of a JS decimal literal: `digits`, `digits.digits`, `.digits` or
`digits.`; fails when no digit is present.  Returned as the concatenated
digit value together with the number of fractional digits (the mantissa value
is `digits / 10 ^ fracLen`). -/
def parseMantissa (cs : List Char) : Option ((Nat × Nat) × List Char) :=
  let ip := takeDigits cs
  match ip.2 with
  | '.' :: r2 =>
    let fp := takeDigits r2
    if ip.1.isEmpty && fp.1.isEmpty then none
    else some ((digitsVal (ip.1 ++ fp.1), fp.1.length), fp.2)
  | _ => if ip.1.isEmpty then none else some ((digitsVal ip.1, 0), ip.2)

/-- Optional exponent part (`e`/`E`, optional sign, digits); an incomplete
exponent is ignored, exactly as JS `parseFloat` backtracks over it. -/
def parseExponent (cs : List Char) : Int :=
  match cs with
  | c :: rest =>
    if c = 'e' ∨ c = 'E' then
      match rest with
      | '+' :: r2 => let ds := takeDigits r2; if ds.1.isEmpty then 0 else (digitsVal ds.1 : Int)
      | '-' :: r2 => let ds := takeDigits r2; if ds.1.isEmpty then 0 else -(digitsVal ds.1 : Int)
      | r2 => let ds := takeDigits r2; if ds.1.isEmpty then 0 else (digitsVal ds.1 : Int)
    else 0
  | [] => 0

/-- Fully discrete front end of JS `parseFloat` on a string: skip leading
whitespace, optional sign, longest decimal-literal prefix; `none` (NaN) when
no digit is found.  Yields the sign, the concatenated mantissa digits, the
fractional length and the exponent.  (The `Infinity` literal is outside the
rational model and maps to `none`; no repository code path feeds it to
`parseFloat`.) -/
def parseFloatParts (s : String) : Option (Bool × Nat × Nat × Int) :=
  let cs := s.toList.dropWhile (fun c => c = ' ' ∨ c = '\t' ∨ c = '\n' ∨ c = '\r')
  let sgn : Bool × List Char :=
    match cs with
    | '-' :: r => (true, r)
    | '+' :: r => (false, r)
    | _ => (false, cs)
  match parseMantissa sgn.2 with
  | none => none
  | some ((digits, fracLen), rest) => some (sgn.1, digits, fracLen, parseExponent rest)

/-- Rational value of a parsed decimal literal. -/
def ratOfParts : Bool × Nat × Nat × Int → ℚ
  | (neg, digits, fracLen, e) =>
    let base : ℚ := (digits : ℚ) / (10 : ℚ) ^ fracLen
    let q := if e ≥ 0 then base * (10 : ℚ) ^ e.toNat else base / (10 : ℚ) ^ (-e).toNat
    if neg then -q else q

/-- JS `parseFloat` on a string, as a rational (`none` = NaN). -/
def parseFloatString (s : String) : Option ℚ :=
  (parseFloatParts s).map ratOfParts

/-- JS `parseFloat` applied to an arbitrary value: the argument is coerced to
a string first.  A finite number round-trips through its decimal printing, so
`num` is the identity; `undefined`/`null`/booleans stringify to non-numeric
words (NaN); an object stringifies to a bracketed object tag (NaN).  Array
coercion (join by comma) is modelled as NaN; no claim exercises it. -/
def parseFloat : JVal → Option ℚ
  | .num q => q
  | .str s => parseFloatString s
  | _ => none

/-- Left-pad with zeros to `k` characters. -/
def padZeros (k : Nat) (s : String) : String :=
  String.mk (List.replicate (k - s.length) '0') ++ s

/-- JS `x.toFixed(6)` for a finite number: sign of `x`, then the integer `n`
nearest to `|x| * 10^6` (ties toward the larger `n`, per the ECMA algorithm),
printed with six fractional digits. -/
def toFixed6 (q : ℚ) : String :=
  let sgn := if q < 0 then "-" else ""
  let n : Int := Int.floor (|q| * 1000000 + 1 / 2)
  let m : Nat := n.toNat
  sgn ++ toString (m / 1000000) ++ "." ++ padZeros 6 (toString (m % 1000000))

/-!  Canonical records produced by the normalizers (src/types/index.ts).  The
TypeScript interfaces declare string/number types, but the normalizers copy
untyped values through unchecked, so the faithful field type is `JVal`;
`liquidity`/`volume`/`active`/`tags` in particular can hold any value the
source object supplied. -/

/-- Canonical Market record (interface Market). -/
structure Market where
  id : JVal
  question : JVal
  slug : JVal
  description : JVal
  endDate : JVal
  image : JVal
  icon : JVal
  resolutionSource : JVal
  tags : JVal
  liquidity : JVal
  volume : JVal
  active : JVal

/-- Canonical Position record (interface Position). -/
structure Position where
  id : JVal
  market : Market
  outcome : JVal
  quantity : JVal
  price : JVal
  value : JVal
  timestamp : JVal

/-- Canonical Trade record (interface Trade). -/
structure Trade where
  id : JVal
  market : Market
  outcome : JVal
  side : JVal
  quantity : JVal
  price : JVal
  timestamp : JVal
  transactionHash : JVal
  user : JVal

/-- PolymarketClient.normalizeMarket (polymarket-client.ts lines 223-238).
The source reads `data.id` first, so an `undefined`/`null` argument throws a
TypeError at that read; any other receiver makes every property access total
(`getD`). -/
def normalizeMarket (data : JVal) : Except JsError Market :=
  match data with
  | .undefined => .error (typeErrorUndefined "id")
  | .null => .error (typeErrorNull "id")
  | _ =>
    .ok {
      id := jor (getD data "id") (jor (getD data "marketId") (.str "")),
      question := jor (getD data "question") (jor (getD data "title") (.str "")),
      slug := jor (getD data "slug") (.str ""),
      description := getD data "description",
      endDate := jor (getD data "endDate") (getD data "endDateISO"),
      image := jor (getD data "image") (getD data "imageUrl"),
      icon := getD data "icon",
      resolutionSource := getD data "resolutionSource",
      tags := jor (getD data "tags") (.arr []),
      liquidity := if truthy (getD data "liquidity")
                   then .num (parseFloat (getD data "liquidity")) else .undefined,
      volume := if truthy (getD data "volume")
                then .num (parseFloat (getD data "volume")) else .undefined,
      active := match getD data "active" with
                | .undefined => .bool true
                | v => v }

/-- PolymarketClient.calculatePositionValue (lines 254-259): quantity × price
with NaN degrading to the string "0", otherwise `toFixed(6)`.  Total, because
its caller has already dereferenced `item` successfully. -/
def calculatePositionValue (item : JVal) : JVal :=
  let quantity := parseFloat (jor (getD item "quantity") (jor (getD item "size") (.str "0")))
  let price := parseFloat (jor (getD item "price") (jor (getD item "lastPrice") (.str "0")))
  match quantity, price with
  | some a, some b => .str (toFixed6 (a * b))
  | _, _ => .str "0"

/-- Argument handed to the Market Normalizer for a position or trade item:
`item.market || item.marketData`. -/
def marketArg (item : JVal) : JVal :=
  jor (getD item "market") (getD item "marketData")

/-- One item of PolymarketClient.normalizePositions (lines 191-201).  The
source reads `item.id` first (TypeError on a nullish item), then calls
`normalizeMarket(item.market || item.marketData)`, which throws when both
keys are absent or falsy with a nullish fallback. -/
def normalizePosition (now : String) (item : JVal) : Except JsError Position :=
  match item with
  | .undefined => .error (typeErrorUndefined "id")
  | .null => .error (typeErrorNull "id")
  | _ =>
    match normalizeMarket (marketArg item) with
    | .error e => .error e
    | .ok m =>
      .ok {
        id := jor (getD item "id") (jor (getD item "positionId") (.str "")),
        market := m,
        outcome := jor (getD item "outcome") (jor (getD item "outcomeToken") (.str "")),
        quantity := jor (getD item "quantity") (jor (getD item "size") (.str "0")),
        price := jor (getD item "price") (jor (getD item "lastPrice") (.str "0")),
        value := jor (getD item "value") (calculatePositionValue item),
        timestamp := jor (getD item "timestamp") (jor (getD item "createdAt") (.str now)) }

/-- PolymarketClient.normalizePositions: `data.map(...)`, aborting at the
first item whose normalization throws. -/
def normalizePositions (now : String) : List JVal → Except JsError (List Position)
  | [] => .ok []
  | item :: rest =>
    match normalizePosition now item with
    | .error e => .error e
    | .ok p =>
      match normalizePositions now rest with
      | .error e => .error e
      | .ok ps => .ok (p :: ps)

/-- One item of PolymarketClient.normalizeTrades (lines 206-218). -/
def normalizeTrade (now : String) (item : JVal) : Except JsError Trade :=
  match item with
  | .undefined => .error (typeErrorUndefined "id")
  | .null => .error (typeErrorNull "id")
  | _ =>
    match normalizeMarket (marketArg item) with
    | .error e => .error e
    | .ok m =>
      .ok {
        id := jor (getD item "id") (jor (getD item "tradeId") (.str "")),
        market := m,
        outcome := jor (getD item "outcome") (jor (getD item "outcomeToken") (.str "")),
        side := jor (getD item "side")
                    (if truthy (getD item "isBuy") then .str "buy" else .str "sell"),
        quantity := jor (getD item "quantity") (jor (getD item "size") (.str "0")),
        price := jor (getD item "price") (jor (getD item "executionPrice") (.str "0")),
        timestamp := jor (getD item "timestamp") (jor (getD item "createdAt") (.str now)),
        transactionHash := jor (getD item "transactionHash") (getD item "txHash"),
        user := jor (getD item "user") (jor (getD item "userAddress") (.str "")) }

/-- PolymarketClient.normalizeTrades: `data.map(...)`, aborting at the first
item whose normalization throws. -/
def normalizeTrades (now : String) : List JVal → Except JsError (List Trade)
  | [] => .ok []
  | item :: rest =>
    match normalizeTrade now item with
    | .error e => .error e
    | .ok t =>
      match normalizeTrades now rest with
      | .error e => .error e
      | .ok ts => .ok (t :: ts)

/-- Numeric contribution of one position to the total
(`parseFloat(pos.value || "0")` with NaN contributing 0). -/
def positionNum (p : Position) : ℚ :=
  match parseFloat (jor p.value (.str "0")) with
  | none => 0
  | some v => v

/-- PolymarketClient.calculateTotalValue (lines 243-249): reduce the parsed
position values (NaN as 0) from 0 and format with `toFixed(6)`. -/
def calculateTotalValue (positions : List Position) : JVal :=
  let total := positions.foldl (fun sum pos => sum + positionNum pos) (0 : ℚ)
  .str (toFixed6 total)

/-!  API client fetch flow (polymarket-client.ts lines 41-161).  The HTTP
transport is abstracted: each of the two request shapes is represented by its
outcome, `Except JsError JVal`, where an `ok` carries `response.data` and an
`error` carries the axios error (`status` = `error.response?.status`).
Timestamps (`new Date().toISOString()`) are threaded as the `now` argument. -/

/-- Aggregate result of getUserPositions (interface UserPositions). -/
structure UserPositions where
  user : String
  positions : List Position
  totalValue : JVal
  timestamp : String

/-- Aggregate result of getUserTrades (interface UserTrades). -/
structure UserTrades where
  user : String
  trades : List Trade
  totalTrades : Nat
  timestamp : String

/-- The zero-value UserPositions returned on the not-found paths. -/
def emptyUserPositions (user now : String) : UserPositions :=
  ⟨user, [], .str "0", now⟩

/-- The zero-value UserTrades returned on the not-found paths. -/
def emptyUserTrades (user now : String) : UserTrades :=
  ⟨user, [], 0, now⟩

/-- List extraction applied to one attempt:
`response.data.KEY || response.data?.data || response.data || []`.  The first
read is a plain access and throws on a nullish `response.data` (landing in the
same catch as a failed request), the second is optional chaining. -/
def extractListField (key : String) (res : Except JsError JVal) : Except JsError JVal :=
  match res with
  | .error e => .error e
  | .ok d =>
    match getF d key with
    | .error e => .error e
    | .ok v => .ok (jor v (jor (getD d "data") (jor d (.arr []))))

/-- JS `Array.isArray(v) ? v : []` (polymarket-client.ts line 78/142). -/
def asArr : JVal → List JVal
  | .arr xs => xs
  | _ => []

/-- Normalization and aggregation tail of getUserPositions (lines 78-85). -/
def finishPositions (user now : String) (raw : JVal) : Except JsError UserPositions :=
  match normalizePositions now (asArr raw) with
  | .error e => .error e
  | .ok normed => .ok ⟨user, normed, calculateTotalValue normed, now⟩

/-- Body of the outer `try` of getUserPositions (lines 42-85): primary shape,
fallback shape, dual-failure 404 check returning the zero-value result, and
otherwise re-raising the primary attempt's error. -/
def getUserPositionsInner (user now : String) (primary alt : Except JsError JVal) :
    Except JsError UserPositions :=
  match extractListField "positions" primary with
  | .ok raw => finishPositions user now raw
  | .error pe =>
    match extractListField "positions" alt with
    | .ok raw => finishPositions user now raw
    | .error ae =>
      if pe.status = some 404 ∨ ae.status = some 404 then
        .ok (emptyUserPositions user now)
      else
        .error pe

/-- PolymarketClient.getUserPositions (lines 41-98): inner flow plus the outer
catch, which suppresses a 404 as the zero-value result and wraps any other
error with the operation name. -/
def getUserPositions (user now : String) (primary alt : Except JsError JVal) :
    Except String UserPositions :=
  match getUserPositionsInner user now primary alt with
  | .ok r => .ok r
  | .error e =>
    if e.status = some 404 then .ok (emptyUserPositions user now)
    else .error ("Failed to fetch user positions: " ++ e.message)

/-- Normalization and aggregation tail of getUserTrades (lines 142-149). -/
def finishTrades (user now : String) (raw : JVal) : Except JsError UserTrades :=
  match normalizeTrades now (asArr raw) with
  | .error e => .error e
  | .ok normed => .ok ⟨user, normed, normed.length, now⟩

/-- Body of the outer `try` of getUserTrades (lines 104-149); the `limit` and
`sort` request parameters only shape the abstracted HTTP request. -/
def getUserTradesInner (user now : String) (primary alt : Except JsError JVal) :
    Except JsError UserTrades :=
  match extractListField "trades" primary with
  | .ok raw => finishTrades user now raw
  | .error pe =>
    match extractListField "trades" alt with
    | .ok raw => finishTrades user now raw
    | .error ae =>
      if pe.status = some 404 ∨ ae.status = some 404 then
        .ok (emptyUserTrades user now)
      else
        .error pe

/-- PolymarketClient.getUserTrades (lines 103-161). -/
def getUserTrades (user now : String) (primary alt : Except JsError JVal) :
    Except String UserTrades :=
  match getUserTradesInner user now primary alt with
  | .ok r => .ok r
  | .error e =>
    if e.status = some 404 then .ok (emptyUserTrades user now)
    else .error ("Failed to fetch user trades: " ++ e.message)

/-!  Monitor (account-monitor.ts).  The mutable fields `lastStatus` and
`lastTradeIds` form the explicit state; the trade-id set is modelled as the
list of ids with SameValueZero membership. -/

/-- Snapshot delivered to the caller (interface TradingStatus). -/
structure TradingStatus where
  user : String
  totalPositions : Nat
  totalValue : JVal
  recentTrades : List Trade
  openPositions : List Position
  lastUpdated : String

/-- Mutable monitor state: `lastStatus?: TradingStatus` and
`lastTradeIds: Set<string>` (account-monitor.ts lines 18-19). -/
structure MonitorState where
  lastStatus : Option TradingStatus
  lastTradeIds : List JVal

/-- Field initializers of AccountMonitor: no last status, empty id set. -/
def initialState : MonitorState := ⟨none, []⟩

/-- The 1% relative-change test of detectChanges (line 179):
`Math.abs(currentValue - lastValue) / Math.max(lastValue, 0.01) > 0.01`,
where either side being NaN makes the whole comparison false. -/
def valueChangeExceeds : Option ℚ → Option ℚ → Bool
  | some l, some c => decide (|c - l| / max l (1 / 100) > 1 / 100)
  | _, _ => false

/-- AccountMonitor.detectChanges (lines 155-184), returning the boolean
result together with the state after its side effect on `lastTradeIds`. -/
def detectChanges (st : MonitorState) (status : TradingStatus) : Bool × MonitorState :=
  match st.lastStatus with
  | none => (true, st)
  | some last =>
    let currentTradeIds := status.recentTrades.map (fun t => t.id)
    let hasNewTrades := status.recentTrades.any (fun t => ! st.lastTradeIds.contains t.id)
    if hasNewTrades then
      (true, { st with lastTradeIds := currentTradeIds })
    else if status.totalPositions ≠ last.totalPositions then
      (true, st)
    else if valueChangeExceeds (parseFloat last.totalValue) (parseFloat status.totalValue) then
      (true, st)
    else
      (false, st)

/-- Snapshot assembly of AccountMonitor.getStatus (lines 86-128): the two
fetches are `allSettled`, a rejected half is replaced by its zero-value
default, and `recentTrades` is `trades.trades.slice(0, 10)`. -/
def getStatus (user now : String) (positionsResult : Except JsError UserPositions)
    (tradesResult : Except JsError UserTrades) : TradingStatus :=
  let positions := match positionsResult with
    | .ok v => v
    | .error _ => emptyUserPositions user now
  let trades := match tradesResult with
    | .ok v => v
    | .error _ => emptyUserTrades user now
  { user := user,
    totalPositions := positions.positions.length,
    totalValue := positions.totalValue,
    recentTrades := trades.trades.take 10,
    openPositions := positions.positions,
    lastUpdated := now }

/-- The try/catch shell of getStatus (lines 83-133): the body outcome is
abstracted as an `Except` (with `Promise.allSettled` in place, the concrete
body is total, so an `error` models any fault injected inside the `try`).
Returns the list of errors reported to `onError`, in call order, and the
call's own outcome: a body error is reported and then re-raised. -/
def getStatusRun (body : Except JsError TradingStatus) :
    List JsError × Except JsError TradingStatus :=
  match body with
  | .ok s => ([], .ok s)
  | .error e => ([e], .error e)

/-- AccountMonitor.updateStatus (lines 138-150): one timer cycle.  Returns
the state after the cycle, the errors passed to `onError` (both the one
reported inside getStatus and the one reported by this catch), and the
snapshots passed to `onUpdate`.  The catch swallows the error, so the
function is total. -/
def updateStatus (st : MonitorState) (body : Except JsError TradingStatus) :
    MonitorState × List JsError × List TradingStatus :=
  match getStatusRun body with
  | (errs, .error e) => (st, errs ++ [e], [])
  | (errs, .ok s) =>
    let r := detectChanges st s
    if r.1 || r.2.lastStatus.isNone then
      ({ r.2 with lastStatus := some s }, errs, [s])
    else
      (r.2, errs, [])

/-!  Shared evaluation lemmas for concrete rationals: the discrete layers of
the model reduce definitionally, the rational arithmetic is settled by
`norm_num`. -/

/-- Parsing "100" yields the parts (no sign, digits 100, no fraction). -/
lemma parseFloat_100 : parseFloat (.str "100") = some (ratOfParts (false, 100, 0, 0)) := rfl

/-- Value of the parts of "100". -/
lemma ratOfParts_100 : ratOfParts (false, 100, 0, 0) = 100 := by norm_num [ratOfParts]

/-- Parsing "100.5" yields digits 1005 with one fractional digit. -/
lemma parseFloat_100_5 : parseFloat (.str "100.5") = some (ratOfParts (false, 1005, 1, 0)) := rfl

/-- Value of the parts of "100.5". -/
lemma ratOfParts_100_5 : ratOfParts (false, 1005, 1, 0) = 201 / 2 := by norm_num [ratOfParts]

/-- Parsing "102" yields digits 102. -/
lemma parseFloat_102 : parseFloat (.str "102") = some (ratOfParts (false, 102, 0, 0)) := rfl

/-- Value of the parts of "102". -/
lemma ratOfParts_102 : ratOfParts (false, 102, 0, 0) = 102 := by norm_num [ratOfParts]

/-- A 0.5% move from 100 is below the 1% threshold. -/
lemma valueChange_half_pct : valueChangeExceeds (some 100) (some (201 / 2)) = false := by
  simp only [valueChangeExceeds]
  norm_num [abs_of_nonneg]

/-- A 2% move from 100 is above the 1% threshold. -/
lemma valueChange_two_pct : valueChangeExceeds (some 100) (some 102) = true := by
  simp only [valueChangeExceeds]
  norm_num [abs_of_nonneg]

/-- The Bool result of the 1% test unfolds to the spec formula. -/
lemma valueChangeExceeds_some (l c : ℚ) :
    valueChangeExceeds (some l) (some c) = true ↔ |c - l| / max l (1 / 100) > 1 / 100 := by
  simp [valueChangeExceeds]

/-!  Concrete example values used by the explicit examples of the claims. -/

/-- Market produced from an empty source object. -/
def exMarket : Market :=
  ⟨.str "", .str "", .str "", .undefined, .undefined, .undefined, .undefined, .undefined, .arr [],
   .undefined, .undefined, .bool true⟩

/-- Minimal trade record with a given id. -/
def exTrade (i : String) : Trade :=
  ⟨.str i, exMarket, .str "", .str "buy", .str "0", .str "0", .str "t", .undefined, .str ""⟩

/-- Previous snapshot: one position, totalValue "100", one trade with id A. -/
def examplePrev : TradingStatus := ⟨"u", 1, .str "100", [exTrade "A"], [], "t0"⟩

/-- Retained state: previous snapshot delivered, trade ids A and B recorded. -/
def exampleState : MonitorState := ⟨some examplePrev, [.str "A", .str "B"]⟩

/-- Current snapshot with identical positions/ids and totalValue "100.5". -/
def exampleCurHalf : TradingStatus := ⟨"u", 1, .str "100.5", [exTrade "A"], [], "t1"⟩

/-- Current snapshot with identical positions/ids and totalValue "102". -/
def exampleCurTwo : TradingStatus := ⟨"u", 1, .str "102", [exTrade "A"], [], "t1"⟩

/-- When no rule before the value rule fires, detectChanges returns exactly
the 1% test on the parsed totals. -/
lemma detectChanges_value_step (st : MonitorState) (cur last : TradingStatus)
    (h : st.lastStatus = some last)
    (hnew : cur.recentTrades.any (fun t => ! st.lastTradeIds.contains t.id) = false)
    (hpos : cur.totalPositions = last.totalPositions) :
    (detectChanges st cur).1
      = valueChangeExceeds (parseFloat last.totalValue) (parseFloat cur.totalValue) := by
  cases hv : valueChangeExceeds (parseFloat last.totalValue) (parseFloat cur.totalValue) <;>
    simp [detectChanges, h, hnew, hpos, hv]

/-- C1: detectChanges evaluates its rules in order with first match winning:
true when no previous snapshot exists; otherwise true iff a current trade id
is missing from the retained id set, or totalPositions changed, or the
relative totalValue change `abs(cur - prev) / max(prev, 0.01)` exceeds 0.01;
with identical positions and trade ids, previous value 100 and current value
100.5 yield false while 102 yields true. -/
theorem detectChanges_rules :
    (∀ st cur, st.lastStatus = none → (detectChanges st cur).1 = true) ∧
    (∀ st cur last lq cq, st.lastStatus = some last →
      parseFloat last.totalValue = some lq →
      parseFloat cur.totalValue = some cq →
      ((detectChanges st cur).1 = true ↔
        (∃ t ∈ cur.recentTrades, st.lastTradeIds.contains t.id = false) ∨
        cur.totalPositions ≠ last.totalPositions ∨
        |cq - lq| / max lq (1 / 100) > 1 / 100)) ∧
    (detectChanges exampleState exampleCurHalf).1 = false ∧
    (detectChanges exampleState exampleCurTwo).1 = true := by
  refine ⟨fun st cur h => by simp [detectChanges, h], ?_, ?_, ?_⟩
  · intro st cur last lq cq h hl hc
    by_cases hnew : cur.recentTrades.any (fun t => ! st.lastTradeIds.contains t.id) = true
    · simp only [detectChanges, h, hnew, if_true]
      rw [List.any_eq_true] at hnew
      simp only [Bool.not_eq_true'] at hnew
      simp [hnew]
    · rw [Bool.not_eq_true] at hnew
      by_cases hpos : cur.totalPositions = last.totalPositions
      · rw [detectChanges_value_step st cur last h hnew hpos, hl, hc,
          valueChangeExceeds_some]
        rw [List.any_eq_false] at hnew
        simp only [Bool.not_eq_true', Bool.not_eq_false] at hnew
        constructor
        · exact fun hv => Or.inr (Or.inr hv)
        · rintro (⟨t, ht, hcontains⟩ | hp | hv)
          · exact absurd hcontains (by simp [hnew t ht])
          · exact absurd hpos hp
          · exact hv
      · have htrue : (detectChanges st cur).1 = true := by
          simp only [detectChanges, h, hnew, Bool.false_eq_true, if_false]
          rw [if_pos hpos]
        rw [htrue]
        exact ⟨fun _ => Or.inr (Or.inl hpos), fun _ => rfl⟩
  · have hnew : exampleCurHalf.recentTrades.any
        (fun t => ! exampleState.lastTradeIds.contains t.id) = false := rfl
    rw [detectChanges_value_step exampleState exampleCurHalf examplePrev rfl hnew rfl]
    show valueChangeExceeds (parseFloat (.str "100")) (parseFloat (.str "100.5")) = false
    rw [parseFloat_100, parseFloat_100_5, ratOfParts_100, ratOfParts_100_5]
    exact valueChange_half_pct
  · have hnew : exampleCurTwo.recentTrades.any
        (fun t => ! exampleState.lastTradeIds.contains t.id) = false := rfl
    rw [detectChanges_value_step exampleState exampleCurTwo examplePrev rfl hnew rfl]
    show valueChangeExceeds (parseFloat (.str "100")) (parseFloat (.str "102")) = true
    rw [parseFloat_100, parseFloat_102, ratOfParts_100, ratOfParts_102]
    exact valueChange_two_pct

/-- Witness for C1 at concrete inputs: the first-cycle rule at
`initialState`, and the rule characterization at `exampleState` with parsed
values 100 and 102. -/
theorem detectChanges_rules_witness :
    (detectChanges initialState exampleCurHalf).1 = true ∧
    ((detectChanges exampleState exampleCurTwo).1 = true ↔
      (∃ t ∈ exampleCurTwo.recentTrades,
        exampleState.lastTradeIds.contains t.id = false) ∨
      exampleCurTwo.totalPositions ≠ examplePrev.totalPositions ∨
      |(102 : ℚ) - 100| / max 100 (1 / 100) > 1 / 100) :=
  ⟨detectChanges_rules.1 initialState exampleCurHalf rfl,
   detectChanges_rules.2.1 exampleState exampleCurTwo examplePrev 100 102 rfl
     (by simp only [examplePrev, parseFloat_100, ratOfParts_100])
     (by simp only [exampleCurTwo, parseFloat_102, ratOfParts_102])⟩

/-- C4: the retained trade-id set is replaced with exactly the ids of
current.recentTrades when and only when the new-trade rule fires; otherwise
(including the no-previous-snapshot case and cycles where only the
position-count or value rules fire) the state is left unchanged. -/
theorem lastTradeIds_replacement (st : MonitorState) (cur : TradingStatus) :
    (detectChanges st cur).2 =
      if st.lastStatus.isSome
          && cur.recentTrades.any (fun t => ! st.lastTradeIds.contains t.id) then
        { st with lastTradeIds := cur.recentTrades.map (fun t => t.id) }
      else st := by
  cases hst : st.lastStatus with
  | none => simp [detectChanges, hst]
  | some last =>
    simp only [detectChanges, hst, Option.isSome_some, Bool.true_and]
    by_cases hnew : cur.recentTrades.any (fun t => ! st.lastTradeIds.contains t.id) = true
    · simp [hnew]
    · rw [Bool.not_eq_true] at hnew
      simp only [hnew, Bool.false_eq_true, if_false]
      split
      · rfl
      · split <;> rfl

/-- C7: every snapshot built by getStatus carries at most 10 recent trades,
and they are a prefix of the fetched (newest-first) trade list. -/
theorem recentTrades_capped (user now : String) (pr : Except JsError UserPositions)
    (tr : Except JsError UserTrades) :
    (getStatus user now pr tr).recentTrades.length ≤ 10 ∧
    ∃ rest, (match tr with | .ok v => v.trades | .error _ => ([] : List Trade))
        = (getStatus user now pr tr).recentTrades ++ rest := by
  cases tr with
  | ok v =>
    refine ⟨?_, ⟨v.trades.drop 10, by simp [getStatus]⟩⟩
    show (v.trades.take 10).length ≤ 10
    exact List.length_take_le 10 v.trades
  | error e =>
    exact ⟨by simp [getStatus, emptyUserTrades], ⟨[], by simp [getStatus, emptyUserTrades]⟩⟩

/-- C8: an error in getStatus is reported to onError and then re-raised; an
error in a timer-driven updateStatus cycle is reported to onError (once by
getStatus, once by the cycle's own catch) and never propagates: the cycle
returns normally with the retained state untouched and no update callback. -/
theorem error_propagation :
    (∀ e, getStatusRun (.error e) = ([e], .error e)) ∧
    (∀ s, getStatusRun (.ok s) = ([], .ok s)) ∧
    (∀ st e, updateStatus st (.error e) = (st, [e, e], [])) :=
  ⟨fun _ => rfl, fun _ => rfl, fun _ _ => rfl⟩

/-- C10: the first cycle returns true without touching the (empty) retained
trade-id set, so after it the set is still empty, and on the next cycle any
snapshot with a non-empty recentTrades — even one identical to the first —
triggers the new-trade rule. -/
theorem first_cycle_keeps_empty_ids :
    (∀ cur, detectChanges initialState cur = (true, initialState)) ∧
    (∀ s, updateStatus initialState (.ok s) = (⟨some s, []⟩, [], [s])) ∧
    (∀ s : TradingStatus, s.recentTrades ≠ [] →
      (detectChanges ⟨some s, []⟩ s).1 = true) := by
  refine ⟨fun _ => rfl, fun _ => rfl, ?_⟩
  intro s h
  cases hrt : s.recentTrades with
  | nil => exact absurd hrt h
  | cons a l => simp [detectChanges, hrt]

/-- Witness for C10: a snapshot identical to the first one but with one
recorded trade still triggers the detector on the second cycle. -/
theorem first_cycle_keeps_empty_ids_witness :
    examplePrev.recentTrades ≠ [] ∧
    (detectChanges ⟨some examplePrev, []⟩ examplePrev).1 = true :=
  ⟨by simp [examplePrev],
   first_cycle_keeps_empty_ids.2.2 examplePrev (by simp [examplePrev])⟩

/-- With both attempts failed, the inner positions flow reduces to the 404
check, re-raising the primary attempt's error otherwise. -/
lemma getUserPositionsInner_err (user now : String) (pe ae : JsError) :
    getUserPositionsInner user now (.error pe) (.error ae) =
      if pe.status = some 404 ∨ ae.status = some 404 then
        .ok (emptyUserPositions user now)
      else .error pe := rfl

/-- With both attempts failed, the inner trades flow reduces to the 404
check, re-raising the primary attempt's error otherwise. -/
lemma getUserTradesInner_err (user now : String) (pe ae : JsError) :
    getUserTradesInner user now (.error pe) (.error ae) =
      if pe.status = some 404 ∨ ae.status = some 404 then
        .ok (emptyUserTrades user now)
      else .error pe := rfl

/-- C2: when both the primary and the fallback request fail, a not-found
signal (404 on either attempt) yields the empty zero-value result without
throwing, while any other dual failure throws a wrapped error naming the
operation and carrying the primary attempt's message — for getUserPositions
and getUserTrades alike. -/
theorem dual_failure_handling :
    (∀ user now pe ae, pe.status = some 404 ∨ ae.status = some 404 →
      getUserPositions user now (.error pe) (.error ae)
        = .ok (emptyUserPositions user now)) ∧
    (∀ user now pe ae, pe.status ≠ some 404 → ae.status ≠ some 404 →
      getUserPositions user now (.error pe) (.error ae)
        = .error ("Failed to fetch user positions: " ++ pe.message)) ∧
    (∀ user now pe ae, pe.status = some 404 ∨ ae.status = some 404 →
      getUserTrades user now (.error pe) (.error ae)
        = .ok (emptyUserTrades user now)) ∧
    (∀ user now pe ae, pe.status ≠ some 404 → ae.status ≠ some 404 →
      getUserTrades user now (.error pe) (.error ae)
        = .error ("Failed to fetch user trades: " ++ pe.message)) := by
  refine ⟨?_, ?_, ?_, ?_⟩
  · intro user now pe ae h
    unfold getUserPositions
    rw [getUserPositionsInner_err, if_pos h]
  · intro user now pe ae h1 h2
    unfold getUserPositions
    rw [getUserPositionsInner_err, if_neg (by simp [h1, h2])]
    show (if pe.status = some 404 then Except.ok (emptyUserPositions user now)
      else .error ("Failed to fetch user positions: " ++ pe.message))
      = .error ("Failed to fetch user positions: " ++ pe.message)
    rw [if_neg h1]
  · intro user now pe ae h
    unfold getUserTrades
    rw [getUserTradesInner_err, if_pos h]
  · intro user now pe ae h1 h2
    unfold getUserTrades
    rw [getUserTradesInner_err, if_neg (by simp [h1, h2])]
    show (if pe.status = some 404 then Except.ok (emptyUserTrades user now)
      else .error ("Failed to fetch user trades: " ++ pe.message))
      = .error ("Failed to fetch user trades: " ++ pe.message)
    rw [if_neg h1]

/-- Witness for C2: a dual 404 yields the zero-value positions result, and a
500/timeout pair propagates the primary message wrapped with the operation
name. -/
theorem dual_failure_handling_witness :
    getUserPositions "0xabc" "T"
        (.error ⟨some 404, "Request failed with status code 404"⟩)
        (.error ⟨some 404, "Request failed with status code 404"⟩)
      = .ok (emptyUserPositions "0xabc" "T") ∧
    getUserTrades "0xabc" "T"
        (.error ⟨some 500, "Request failed with status code 500"⟩)
        (.error ⟨none, "timeout of 30000ms exceeded"⟩)
      = .error ("Failed to fetch user trades: Request failed with status code 500") :=
  ⟨dual_failure_handling.1 "0xabc" "T" _ _ (Or.inl rfl),
   dual_failure_handling.2.2.2 "0xabc" "T" _ _ (by decide) (by decide)⟩

/-- Receivers whose property reads do not throw. -/
def notNullish : JVal → Bool
  | .undefined => false
  | .null => false
  | _ => true

/-- A position/trade item whose normalization cannot throw: the item itself
and the market argument handed to the Market Normalizer are non-nullish. -/
def itemOk (item : JVal) : Bool :=
  notNullish item && notNullish (marketArg item)

/-- The Market Normalizer succeeds on every non-nullish input. -/
lemma normalizeMarket_ok (data : JVal) (h : notNullish data = true) :
    ∃ m, normalizeMarket data = .ok m := by
  cases data with
  | undefined => exact absurd h (by simp [notNullish])
  | null => exact absurd h (by simp [notNullish])
  | bool b => exact ⟨_, rfl⟩
  | num q => exact ⟨_, rfl⟩
  | str s => exact ⟨_, rfl⟩
  | arr xs => exact ⟨_, rfl⟩
  | obj fs => exact ⟨_, rfl⟩

/-- Position normalization succeeds on every item that passes `itemOk`. -/
lemma normalizePosition_ok (now : String) (item : JVal) (h : itemOk item = true) :
    ∃ p, normalizePosition now item = .ok p := by
  obtain ⟨h1, h2⟩ : notNullish item = true ∧ notNullish (marketArg item) = true := by
    simpa [itemOk] using h
  obtain ⟨m, hm⟩ := normalizeMarket_ok (marketArg item) h2
  cases item with
  | undefined => exact absurd h1 (by simp [notNullish])
  | null => exact absurd h1 (by simp [notNullish])
  | bool b => exact ⟨_, by simp only [normalizePosition, hm]; rfl⟩
  | num q => exact ⟨_, by simp only [normalizePosition, hm]; rfl⟩
  | str s => exact ⟨_, by simp only [normalizePosition, hm]; rfl⟩
  | arr xs => exact ⟨_, by simp only [normalizePosition, hm]; rfl⟩
  | obj fs => exact ⟨_, by simp only [normalizePosition, hm]; rfl⟩

/-- Trade normalization succeeds on every item that passes `itemOk`. -/
lemma normalizeTrade_ok (now : String) (item : JVal) (h : itemOk item = true) :
    ∃ t, normalizeTrade now item = .ok t := by
  obtain ⟨h1, h2⟩ : notNullish item = true ∧ notNullish (marketArg item) = true := by
    simpa [itemOk] using h
  obtain ⟨m, hm⟩ := normalizeMarket_ok (marketArg item) h2
  cases item with
  | undefined => exact absurd h1 (by simp [notNullish])
  | null => exact absurd h1 (by simp [notNullish])
  | bool b => exact ⟨_, by simp only [normalizeTrade, hm]; rfl⟩
  | num q => exact ⟨_, by simp only [normalizeTrade, hm]; rfl⟩
  | str s => exact ⟨_, by simp only [normalizeTrade, hm]; rfl⟩
  | arr xs => exact ⟨_, by simp only [normalizeTrade, hm]; rfl⟩
  | obj fs => exact ⟨_, by simp only [normalizeTrade, hm]; rfl⟩

/-- C3 counterexample: the claim that normalization never throws fails on a
position or trade item whose `market`/`marketData` fields are absent — the
Market Normalizer dereferences `undefined` and the whole batch aborts with a
TypeError. -/
theorem normalize_throws_counterexample :
    normalizePositions "T" [JVal.obj [("id", JVal.str "p1")]]
      = .error (typeErrorUndefined "id") ∧
    normalizeTrades "T" [JVal.obj [("id", JVal.str "t1")]]
      = .error (typeErrorUndefined "id") ∧
    normalizeMarket .undefined = .error (typeErrorUndefined "id") :=
  ⟨rfl, rfl, rfl⟩

/-- C3 (amended): the Market Normalizer returns a Market for every input
other than undefined/null — with empty-string identifier and question on an
empty object — and the Position/Trade Normalizer returns exactly one record
per input item provided every item and its market argument are non-nullish;
given an absent/null market object it instead throws. -/
theorem normalize_total_on_present_market :
    (∀ data, notNullish data = true → ∃ m, normalizeMarket data = .ok m) ∧
    (∃ m, normalizeMarket (.obj []) = .ok m ∧ m.id = .str "" ∧ m.question = .str "") ∧
    (∀ now items, (∀ item ∈ items, itemOk item = true) →
      ∃ ps, normalizePositions now items = .ok ps ∧ ps.length = items.length) ∧
    (∀ now items, (∀ item ∈ items, itemOk item = true) →
      ∃ ts, normalizeTrades now items = .ok ts ∧ ts.length = items.length) := by
  refine ⟨normalizeMarket_ok, ⟨_, rfl, rfl, rfl⟩, ?_, ?_⟩
  · intro now items hall
    induction items with
    | nil => exact ⟨[], rfl, rfl⟩
    | cons a t ih =>
      obtain ⟨p, hp⟩ := normalizePosition_ok now a (hall a (List.mem_cons_self a t))
      obtain ⟨ps, hps, hlen⟩ := ih (fun item hmem => hall item (List.mem_cons_of_mem a hmem))
      exact ⟨p :: ps, by simp only [normalizePositions, hp, hps], by simp [hlen]⟩
  · intro now items hall
    induction items with
    | nil => exact ⟨[], rfl, rfl⟩
    | cons a t ih =>
      obtain ⟨p, hp⟩ := normalizeTrade_ok now a (hall a (List.mem_cons_self a t))
      obtain ⟨ts, hts, hlen⟩ := ih (fun item hmem => hall item (List.mem_cons_of_mem a hmem))
      exact ⟨p :: ts, by simp only [normalizeTrades, hp, hts], by simp [hlen]⟩

/-- Witness for C3 (amended): a single item carrying an empty market object
normalizes to exactly one record. -/
theorem normalize_total_witness :
    (∀ item ∈ [JVal.obj [("market", JVal.obj [])]], itemOk item = true) ∧
    (∃ ps, normalizePositions "T" [JVal.obj [("market", JVal.obj [])]] = .ok ps ∧
      ps.length = 1) :=
  ⟨fun item hmem => by
      rw [List.mem_singleton.mp hmem]
      rfl,
   normalize_total_on_present_market.2.2.1 "T" [JVal.obj [("market", JVal.obj [])]]
     (fun item hmem => by
       rw [List.mem_singleton.mp hmem]
       rfl)⟩

/-- Property read on an object literal is field lookup. -/
lemma getD_obj (fs : List (String × JVal)) (k : String) :
    getD (.obj fs) k = lookupField fs k := rfl

/-- Floor computation behind `(25).toFixed(6)`. -/
lemma floor_for_25 : ⌊|(25 : ℚ)| * 1000000 + 1 / 2⌋ = (25000000 : Int) := by
  rw [abs_of_nonneg (by norm_num)]
  rw [Int.floor_eq_iff]
  constructor <;> norm_num

/-- Concrete formatting fact: `(25).toFixed(6)` is "25.000000". -/
lemma toFixed6_25 : toFixed6 25 = "25.000000" := by
  unfold toFixed6
  rw [if_neg (by norm_num), floor_for_25]
  rfl

/-- Floor computation behind `(0).toFixed(6)`. -/
lemma floor_for_0 : ⌊|(0 : ℚ)| * 1000000 + 1 / 2⌋ = (0 : Int) := by
  rw [abs_of_nonneg (by norm_num)]
  rw [Int.floor_eq_iff]
  constructor <;> norm_num

/-- Concrete formatting fact: `(0).toFixed(6)` is "0.000000". -/
lemma toFixed6_0 : toFixed6 0 = "0.000000" := by
  unfold toFixed6
  rw [if_neg (by norm_num), floor_for_0]
  rfl

/-- A toFixed(6) string always contains the decimal point, so it is never
empty (hence always truthy). -/
lemma toFixed6_ne_empty (q : ℚ) : toFixed6 q ≠ "" := by
  unfold toFixed6
  intro h
  have hlen := congrArg String.length h
  simp only [String.length_append] at hlen
  rw [show String.length "" = 0 from rfl,
    show String.length "." = 1 from rfl] at hlen
  omega

/-- C9 counterexample: a truthy but unparsable liquidity ("abc") is stored
as NaN, a present number, not left absent as the claim states; likewise a
provided non-boolean active (null) is passed through instead of defaulting
to true. -/
theorem market_defaults_counterexample :
    normalizeMarket (JVal.obj [("liquidity", JVal.str "abc")])
      = .ok ⟨.str "", .str "", .str "", .undefined, .undefined, .undefined, .undefined, .undefined,
             .arr [], .num none, .undefined, .bool true⟩ ∧
    JVal.num none ≠ JVal.undefined ∧
    normalizeMarket (JVal.obj [("active", JVal.null)])
      = .ok ⟨.str "", .str "", .str "", .undefined, .undefined, .undefined, .undefined, .undefined,
             .arr [], .undefined, .undefined, .null⟩ ∧
    JVal.null ≠ JVal.bool true :=
  ⟨rfl, fun h => JVal.noConfusion h, rfl, fun h => JVal.noConfusion h⟩

/-- C9 (amended): liquidity and volume are parsed from the source value when
it is truthy (an unparsable truthy value hence yields NaN rather than
absence) and left absent exactly when the source field is missing or falsy;
active defaults to true exactly when the source active field is undefined,
any other provided value passing through unchanged; tags defaults to the
empty sequence when absent. -/
theorem market_field_defaults (fs : List (String × JVal)) (m : Market)
    (h : normalizeMarket (.obj fs) = .ok m) :
    (truthy (lookupField fs "liquidity") = false → m.liquidity = .undefined) ∧
    (truthy (lookupField fs "liquidity") = true →
      m.liquidity = .num (parseFloat (lookupField fs "liquidity"))) ∧
    (truthy (lookupField fs "volume") = false → m.volume = .undefined) ∧
    (truthy (lookupField fs "volume") = true →
      m.volume = .num (parseFloat (lookupField fs "volume"))) ∧
    (lookupField fs "active" = .undefined → m.active = .bool true) ∧
    (lookupField fs "active" ≠ .undefined → m.active = lookupField fs "active") ∧
    (lookupField fs "tags" = .undefined → m.tags = .arr []) := by
  have hrec := Except.ok.inj h
  subst hrec
  refine ⟨?_, ?_, ?_, ?_, ?_, ?_, ?_⟩
  · intro hf; simp [getD_obj, hf]
  · intro hf; simp [getD_obj, hf]
  · intro hf; simp [getD_obj, hf]
  · intro hf; simp [getD_obj, hf]
  · intro hf; simp [getD_obj, hf]
  · intro hne
    cases hval : lookupField fs "active" with
    | undefined => exact absurd hval hne
    | null => simp [getD_obj, hval]
    | bool b => simp [getD_obj, hval]
    | num q => simp [getD_obj, hval]
    | str s => simp [getD_obj, hval]
    | arr xs => simp [getD_obj, hval]
    | obj gs => simp [getD_obj, hval]
  · intro hf; simp [getD_obj, hf, jor, truthy]

/-- Witness for C9 (amended) at a parsable liquidity "5". -/
theorem market_field_defaults_witness :
    ∃ m, normalizeMarket (.obj [("liquidity", JVal.str "5")]) = .ok m ∧
      truthy (lookupField [("liquidity", JVal.str "5")] "liquidity") = true ∧
      m.liquidity = .num (parseFloat (lookupField [("liquidity", JVal.str "5")] "liquidity")) :=
  ⟨_, rfl, rfl, (market_field_defaults _ _ rfl).2.1 rfl⟩

/-- Whenever position normalization succeeds, the value field is
`item.value || calculatePositionValue(item)`. -/
lemma normalizePosition_value (now : String) (item : JVal) (p : Position)
    (h : normalizePosition now item = .ok p) :
    p.value = jor (getD item "value") (calculatePositionValue item) := by
  cases item with
  | undefined => exact absurd h (by simp [normalizePosition])
  | null => exact absurd h (by simp [normalizePosition])
  | bool b =>
    unfold normalizePosition at h
    cases hm : normalizeMarket (marketArg (.bool b)) with
    | error e => rw [hm] at h; exact absurd h (by simp)
    | ok m => rw [hm] at h; rw [← Except.ok.inj h]
  | num q =>
    unfold normalizePosition at h
    cases hm : normalizeMarket (marketArg (.num q)) with
    | error e => rw [hm] at h; exact absurd h (by simp)
    | ok m => rw [hm] at h; rw [← Except.ok.inj h]
  | str s =>
    unfold normalizePosition at h
    cases hm : normalizeMarket (marketArg (.str s)) with
    | error e => rw [hm] at h; exact absurd h (by simp)
    | ok m => rw [hm] at h; rw [← Except.ok.inj h]
  | arr xs =>
    unfold normalizePosition at h
    cases hm : normalizeMarket (marketArg (.arr xs)) with
    | error e => rw [hm] at h; exact absurd h (by simp)
    | ok m => rw [hm] at h; rw [← Except.ok.inj h]
  | obj fs =>
    unfold normalizePosition at h
    cases hm : normalizeMarket (marketArg (.obj fs)) with
    | error e => rw [hm] at h; exact absurd h (by simp)
    | ok m => rw [hm] at h; rw [← Except.ok.inj h]

/-- A string with a parse result is non-empty. -/
lemma parse_some_ne_empty (s : String) (q : ℚ) (h : parseFloatString s = some q) :
    s ≠ "" := by
  intro he
  rw [he] at h
  exact Option.noConfusion h

/-- C5: the normalized Position.value is the source value when a (truthy)
one is present; otherwise it is quantity × price formatted with toFixed(6),
degrading to "0" when either factor is non-numeric; value is always truthy
after normalization; and quantity "10" with price "2.5" yields
"25.000000". -/
theorem position_value_rules :
    (∀ now fs p s, normalizePosition now (.obj fs) = .ok p →
      lookupField fs "value" = .str s → s ≠ "" → p.value = .str s) ∧
    (∀ now fs p qs ps q r, normalizePosition now (.obj fs) = .ok p →
      lookupField fs "value" = .undefined →
      lookupField fs "quantity" = .str qs → lookupField fs "price" = .str ps →
      parseFloatString qs = some q → parseFloatString ps = some r →
      p.value = .str (toFixed6 (q * r))) ∧
    (∀ now fs p qs ps, normalizePosition now (.obj fs) = .ok p →
      lookupField fs "value" = .undefined →
      lookupField fs "quantity" = .str qs → lookupField fs "price" = .str ps →
      qs ≠ "" → ps ≠ "" →
      (parseFloatString qs = none ∨ parseFloatString ps = none) →
      p.value = .str "0") ∧
    (∀ now item p, normalizePosition now item = .ok p → truthy p.value = true) ∧
    (∃ p, normalizePosition "T"
        (.obj [("quantity", JVal.str "10"), ("price", JVal.str "2.5"),
               ("market", JVal.obj [])]) = .ok p ∧
      p.value = .str "25.000000") := by
  refine ⟨?_, ?_, ?_, ?_, ?_⟩
  · intro now fs p s h hv hs
    rw [normalizePosition_value now _ p h, getD_obj, hv]
    simp [jor, truthy, hs]
  · intro now fs p qs ps q r h hv hq hp hpq hpr
    have hqs := parse_some_ne_empty qs q hpq
    have hps := parse_some_ne_empty ps r hpr
    rw [normalizePosition_value now _ p h, getD_obj, hv]
    simp only [jor, truthy, decide_eq_true_eq]
    rw [if_neg (by simp)]
    unfold calculatePositionValue
    simp only [getD_obj, hq, hp]
    rw [show jor (JVal.str qs) (jor (lookupField fs "size") (JVal.str "0"))
        = JVal.str qs from by simp [jor, truthy, hqs]]
    rw [show jor (JVal.str ps) (jor (lookupField fs "lastPrice") (JVal.str "0"))
        = JVal.str ps from by simp [jor, truthy, hps]]
    show (match parseFloatString qs, parseFloatString ps with
      | some a, some b => JVal.str (toFixed6 (a * b))
      | _, _ => JVal.str "0") = JVal.str (toFixed6 (q * r))
    rw [hpq, hpr]
  · intro now fs p qs ps h hv hq hp hqs hps hnone
    rw [normalizePosition_value now _ p h, getD_obj, hv]
    simp only [jor, truthy, decide_eq_true_eq]
    rw [if_neg (by simp)]
    unfold calculatePositionValue
    simp only [getD_obj, hq, hp]
    rw [show jor (JVal.str qs) (jor (lookupField fs "size") (JVal.str "0"))
        = JVal.str qs from by simp [jor, truthy, hqs]]
    rw [show jor (JVal.str ps) (jor (lookupField fs "lastPrice") (JVal.str "0"))
        = JVal.str ps from by simp [jor, truthy, hps]]
    show (match parseFloatString qs, parseFloatString ps with
      | some a, some b => JVal.str (toFixed6 (a * b))
      | _, _ => JVal.str "0") = JVal.str "0"
    rcases hnone with hn | hn
    · rw [hn]
    · rw [hn]
      rcases hpq : parseFloatString qs with _ | q <;> rfl
  · intro now item p h
    rw [normalizePosition_value now item p h]
    cases htr : truthy (getD item "value") with
    | true => simp [jor, htr]
    | false =>
      simp only [jor, htr, Bool.false_eq_true, if_false]
      unfold calculatePositionValue
      cases parseFloat (jor (getD item "quantity") (jor (getD item "size") (JVal.str "0"))) with
      | none => rfl
      | some a =>
        cases parseFloat (jor (getD item "price") (jor (getD item "lastPrice") (JVal.str "0"))) with
        | none => rfl
        | some b => simp [truthy, toFixed6_ne_empty]
  · refine ⟨_, rfl, ?_⟩
    show JVal.str (toFixed6 (ratOfParts (false, 10, 0, 0) * ratOfParts (false, 25, 1, 0)))
      = JVal.str "25.000000"
    rw [show ratOfParts (false, 10, 0, 0) * ratOfParts (false, 25, 1, 0) = 25 from by
      norm_num [ratOfParts]]
    rw [toFixed6_25]

/-- Witness for C5: an item with an explicit value "7" keeps it. -/
theorem position_value_rules_witness :
    ∃ p, normalizePosition "T"
        (.obj [("value", JVal.str "7"), ("market", JVal.obj [])]) = .ok p ∧
      p.value = .str "7" :=
  ⟨_, rfl, position_value_rules.1 "T"
    [("value", JVal.str "7"), ("market", JVal.obj [])] _ "7" rfl rfl (by decide)⟩

/-- Folding additions from an initial value equals the initial value plus the
sum of the mapped contributions. -/
lemma foldl_add_map (f : Position → ℚ) :
    ∀ (l : List Position) (init : ℚ),
      l.foldl (fun sum pos => sum + f pos) init = init + (l.map f).sum := by
  intro l
  induction l with
  | nil => intro init; simp
  | cons a t ih => intro init; simp [ih, add_assoc]

/-- C6: the totalValue of a successfully fetched position list is the sum of
the normalized positions' parsed values (non-numeric ones contributing 0)
formatted with toFixed(6); the empty list gives "0.000000"; and the
not-found suppression path instead carries the plain "0" default. -/
theorem totalValue_sum :
    (∀ ps, calculateTotalValue ps = .str (toFixed6 ((ps.map positionNum).sum))) ∧
    (∀ p, parseFloat (jor p.value (.str "0")) = none → positionNum p = 0) ∧
    calculateTotalValue [] = .str "0.000000" ∧
    (∀ user now primary alt raw normed,
      extractListField "positions" primary = .ok raw →
      normalizePositions now (asArr raw) = .ok normed →
      getUserPositions user now primary alt
        = .ok ⟨user, normed, calculateTotalValue normed, now⟩) ∧
    (∀ user now, (emptyUserPositions user now).totalValue = .str "0") := by
  refine ⟨?_, ?_, ?_, ?_, fun user now => rfl⟩
  · intro ps
    unfold calculateTotalValue
    rw [foldl_add_map positionNum ps 0, zero_add]
  · intro p h
    simp [positionNum, h]
  · show JVal.str (toFixed6 0) = .str "0.000000"
    rw [toFixed6_0]
  · intro user now primary alt raw normed h1 h2
    unfold getUserPositions getUserPositionsInner
    simp only [h1]
    unfold finishPositions
    simp only [h2]

/-- Witness for C6: an empty fetched array yields totalValue
`toFixed6 0 = "0.000000"` through the success path. -/
theorem totalValue_sum_witness :
    extractListField "positions" (.ok (JVal.arr [])) = .ok (JVal.arr []) ∧
    normalizePositions "T" (asArr (JVal.arr [])) = .ok [] ∧
    getUserPositions "0xabc" "T" (.ok (JVal.arr [])) (.error ⟨none, "x"⟩)
      = .ok ⟨"0xabc", [], calculateTotalValue [], "T"⟩ :=
  ⟨rfl, rfl, totalValue_sum.2.2.2.1 "0xabc" "T" _ _ _ _ rfl rfl⟩

end Poly
